import Mathlib

/-!
Verification development for the YEN 3D snake game.

This file shallowly embeds the spatial-index, collision, boundary, spawning
and dissolution logic of the game (src/JS/systems/CollisionSystem.js,
src/JS/core/Snake.js, the NibbleManager, the Game orchestrator and the
monolithic game module) and proves properties about it.

Modelling conventions:
- 3D vectors use rational coordinates (the JS engine uses IEEE doubles; all
  comparisons the claims depend on are order comparisons, which ℚ models
  faithfully for the representable inputs considered here).
- JS Map and WeakMap objects are modelled as functions with Option results;
  a Map key that is absent corresponds to the function returning none, and
  a Set of entities is modelled as a duplicate-free list.  Entities
  (THREE.Object3D instances) are identified by natural-number ids.
- Euclidean distances are compared via squared distances: for d, c ≥ 0 the
  JS comparison sqrt d < c is equivalent to d < c ^ 2, which keeps every
  definition inside ℚ.
-/

/-- Three-dimensional vector with rational coordinates (THREE.Vector3). -/
structure Vec3 where
  x : ℚ
  y : ℚ
  z : ℚ
deriving DecidableEq, Repr

instance : Add Vec3 := ⟨fun a b => ⟨a.x + b.x, a.y + b.y, a.z + b.z⟩⟩

/-- VectorMath.distanceSquared from src/JS/utils and the monolithic module:
dx*dx + dy*dy + dz*dz. -/
def distanceSquared (pos1 pos2 : Vec3) : ℚ :=
  (pos1.x - pos2.x) * (pos1.x - pos2.x) +
  (pos1.y - pos2.y) * (pos1.y - pos2.y) +
  (pos1.z - pos2.z) * (pos1.z - pos2.z)

/-! Constants from src/YEN/JS/config/constants.js (identical values appear in
the monolithic module). -/

def CUBE_SIZE : ℚ := 100
def CUBE_HALF_SIZE : ℚ := CUBE_SIZE / 2
def SEGMENT_RADIUS : ℚ := 8 / 10
def SEGMENT_SPACING : ℚ := SEGMENT_RADIUS * 2
def COLLISION_DISTANCE : ℚ := 18 / 10
def WALL_BUFFER : ℚ := 5
def SAFE_WALL_DISTANCE : ℚ := 2
def SAFE_OBJECT_DISTANCE : ℚ := 2
def SHADOW_SPAWN_DELAY : ℚ := 3000

/-! ## SpatialGrid (src/JS/systems/CollisionSystem.js, lines 14-110)

The grid Map<string, Set<Object3D>> is modelled as a function from integer
cell keys to duplicate-free lists of entity ids; the objectMap WeakMap is a
function from entity ids to an optional cell key.  The source evicts empty
cells eagerly, so a present-but-empty cell never occurs there and an absent
key is observationally the same as an empty list. -/

/-- A grid cell key: the three integers of the string key x,y,z. -/
structure GridKey where
  kx : ℤ
  ky : ℤ
  kz : ℤ
deriving DecidableEq, Repr

/-- SpatialGrid.getGridKey: Math.floor(position / cellSize) per axis. -/
def getGridKey (cellSize : ℚ) (position : Vec3) : GridKey :=
  ⟨⌊position.x / cellSize⌋, ⌊position.y / cellSize⌋, ⌊position.z / cellSize⌋⟩

structure SpatialGrid where
  cellSize : ℚ
  grid : GridKey → List ℕ
  objectMap : ℕ → Option GridKey

def SpatialGrid.empty (cellSize : ℚ) : SpatialGrid :=
  ⟨cellSize, fun _ => [], fun _ => none⟩

/-- SpatialGrid.remove: look up the object's cell in objectMap, delete the
object from that cell's set (the source also drops the cell when it becomes
empty, which is invisible in the function model), then delete the objectMap
entry. -/
def SpatialGrid.remove (g : SpatialGrid) (object : ℕ) : SpatialGrid :=
  match g.objectMap object with
  | some key =>
      { g with
        grid := fun k => if k = key then (g.grid key).erase object else g.grid k
        objectMap := fun o => if o = object then none else g.objectMap o }
  | none =>
      { g with objectMap := fun o => if o = object then none else g.objectMap o }

/-- SpatialGrid.insert: compute the key for the position, remove the object
from any previous cell, add it to the new cell's set (Set.add is a no-op on
a member) and record the cell in objectMap. -/
def SpatialGrid.insert (g : SpatialGrid) (object : ℕ) (position : Vec3) : SpatialGrid :=
  let key := getGridKey g.cellSize position
  let g1 := g.remove object
  { g1 with
    grid := fun k =>
      if k = key then
        (if object ∈ g1.grid key then g1.grid key else g1.grid key ++ [object])
      else g1.grid k
    objectMap := fun o => if o = object then some key else g1.objectMap o }

/-- Inclusive integer range a, a+1, ..., b (the three nested for loops of
getNearby run from center - cellRadius to center + cellRadius inclusive). -/
def intRange (a b : ℤ) : List ℤ :=
  (List.range (b + 1 - a).toNat).map (fun i : ℕ => a + (i : ℤ))

/-- The cell keys visited by SpatialGrid.getNearby around a center key. -/
def nearbyKeys (c : GridKey) (cellRadius : ℤ) : List GridKey :=
  (intRange (c.kx - cellRadius) (c.kx + cellRadius)).flatMap (fun x =>
    (intRange (c.ky - cellRadius) (c.ky + cellRadius)).flatMap (fun y =>
      (intRange (c.kz - cellRadius) (c.kz + cellRadius)).map (fun z => GridKey.mk x y z)))

/-- Accumulate a list into a set-like accumulator, preserving first-insertion
order and skipping duplicates (the JS Set the results are collected in). -/
def addAllToSet (acc l : List ℕ) : List ℕ :=
  l.foldl (fun a o => if o ∈ a then a else a ++ [o]) acc

/-- SpatialGrid.getNearby: cellRadius = ceil(radius / cellSize); visit every
cell whose key is within cellRadius of the center key per axis and collect
the distinct objects found. -/
def SpatialGrid.getNearby (g : SpatialGrid) (position : Vec3) (radius : ℚ) : List ℕ :=
  let cellRadius : ℤ := ⌈radius / g.cellSize⌉
  let center := getGridKey g.cellSize position
  (nearbyKeys center cellRadius).foldl (fun acc k => addAllToSet acc (g.grid k)) []

theorem mem_addAllToSet {acc l : List ℕ} {e : ℕ} :
    e ∈ addAllToSet acc l ↔ e ∈ acc ∨ e ∈ l := by
  induction l generalizing acc with
  | nil => simp [addAllToSet]
  | cons o rest ih =>
    simp only [addAllToSet, List.foldl_cons] at *
    by_cases h : o ∈ acc
    · simp [h, ih, List.mem_cons]
      constructor
      · rintro (h1 | h1)
        · exact Or.inl h1
        · exact Or.inr (Or.inr h1)
      · rintro (h1 | rfl | h1)
        · exact Or.inl h1
        · exact Or.inl h
        · exact Or.inr h1
    · simp [h, ih, List.mem_append, List.mem_cons]
      constructor
      · rintro ((h1 | h1) | h1)
        · exact Or.inl h1
        · exact Or.inr (Or.inl h1)
        · exact Or.inr (Or.inr h1)
      · rintro (h1 | rfl | h1)
        · exact Or.inl (Or.inl h1)
        · exact Or.inl (Or.inr rfl)
        · exact Or.inr h1

theorem nodup_addAllToSet {acc l : List ℕ} (h : acc.Nodup) :
    (addAllToSet acc l).Nodup := by
  induction l generalizing acc with
  | nil => exact h
  | cons o rest ih =>
    simp only [addAllToSet, List.foldl_cons]
    by_cases hmem : o ∈ acc
    · simp only [hmem, if_true]
      exact ih h
    · simp only [hmem, if_false]
      exact ih (by simp [List.nodup_append, h, hmem])

theorem mem_foldl_addAllToSet {keys : List GridKey} {f : GridKey → List ℕ}
    {acc : List ℕ} {e : ℕ} :
    e ∈ keys.foldl (fun a k => addAllToSet a (f k)) acc ↔
      e ∈ acc ∨ ∃ k ∈ keys, e ∈ f k := by
  induction keys generalizing acc with
  | nil => simp
  | cons k rest ih =>
    simp only [List.foldl_cons, ih, mem_addAllToSet, List.mem_cons]
    constructor
    · rintro ((h1 | h1) | ⟨k1, hk1, hek⟩)
      · exact Or.inl h1
      · exact Or.inr ⟨k, Or.inl rfl, h1⟩
      · exact Or.inr ⟨k1, Or.inr hk1, hek⟩
    · rintro (h1 | ⟨k1, (rfl | hk1), hek⟩)
      · exact Or.inl (Or.inl h1)
      · exact Or.inl (Or.inr hek)
      · exact Or.inr ⟨k1, hk1, hek⟩

theorem mem_intRange {a b i : ℤ} : i ∈ intRange a b ↔ a ≤ i ∧ i ≤ b := by
  simp only [intRange, List.mem_map, List.mem_range]
  constructor
  · rintro ⟨n, hn, rfl⟩
    omega
  · rintro ⟨h1, h2⟩
    exact ⟨(i - a).toNat, by omega, by omega⟩

theorem mem_nearbyKeys {c : GridKey} {r : ℤ} {k : GridKey} :
    k ∈ nearbyKeys c r ↔
      c.kx - r ≤ k.kx ∧ k.kx ≤ c.kx + r ∧
      c.ky - r ≤ k.ky ∧ k.ky ≤ c.ky + r ∧
      c.kz - r ≤ k.kz ∧ k.kz ≤ c.kz + r := by
  simp only [nearbyKeys, List.mem_flatMap, List.mem_map, mem_intRange]
  constructor
  · rintro ⟨x, ⟨hx1, hx2⟩, y, ⟨hy1, hy2⟩, z, ⟨hz1, hz2⟩, rfl⟩
    exact ⟨hx1, hx2, hy1, hy2, hz1, hz2⟩
  · rintro ⟨hx1, hx2, hy1, hy2, hz1, hz2⟩
    exact ⟨k.kx, ⟨hx1, hx2⟩, k.ky, ⟨hy1, hy2⟩, k.kz, ⟨hz1, hz2⟩, rfl⟩

/-- Membership characterisation of getNearby: an object is returned exactly
when some cell whose key lies within cellRadius of the query's cell (per
axis) contains it. -/
theorem mem_getNearby {g : SpatialGrid} {position : Vec3} {radius : ℚ} {e : ℕ} :
    e ∈ g.getNearby position radius ↔
      ∃ k ∈ nearbyKeys (getGridKey g.cellSize position) ⌈radius / g.cellSize⌉,
        e ∈ g.grid k := by
  simp only [SpatialGrid.getNearby, mem_foldl_addAllToSet, List.not_mem_nil, false_or]

theorem nodup_getNearby {g : SpatialGrid} {position : Vec3} {radius : ℚ} :
    (g.getNearby position radius).Nodup := by
  rw [SpatialGrid.getNearby]
  generalize nearbyKeys (getGridKey g.cellSize position) ⌈radius / g.cellSize⌉ = keys
  have h : ∀ acc : List ℕ, acc.Nodup →
      (keys.foldl (fun a k => addAllToSet a (g.grid k)) acc).Nodup := by
    induction keys with
    | nil => exact fun acc h => h
    | cons k rest ih => exact fun acc h => ih _ (nodup_addAllToSet h)
  exact h [] List.nodup_nil

/-! ## Spatial-index invariant machinery (claim C2)

GridInv is the well-formedness the grid maintains: an object is a member of
a cell exactly when objectMap points it there, and cells are duplicate-free
(JS Sets). -/

def GridInv (g : SpatialGrid) : Prop :=
  (∀ o k, o ∈ g.grid k ↔ g.objectMap o = some k) ∧ ∀ k, (g.grid k).Nodup

theorem remove_cellSize (g : SpatialGrid) (o : ℕ) : (g.remove o).cellSize = g.cellSize := by
  cases h : g.objectMap o <;> simp [SpatialGrid.remove, h]

theorem remove_objectMap (g : SpatialGrid) (o o' : ℕ) :
    (g.remove o).objectMap o' = if o' = o then none else g.objectMap o' := by
  cases h : g.objectMap o <;> simp [SpatialGrid.remove, h]

theorem insert_cellSize (g : SpatialGrid) (o : ℕ) (p : Vec3) :
    (g.insert o p).cellSize = g.cellSize := by
  simp [SpatialGrid.insert, remove_cellSize]

theorem insert_objectMap (g : SpatialGrid) (o o' : ℕ) (p : Vec3) :
    (g.insert o p).objectMap o' =
      if o' = o then some (getGridKey g.cellSize p)
      else (g.remove o).objectMap o' := by
  simp [SpatialGrid.insert, remove_cellSize]

theorem remove_grid (g : SpatialGrid) (o : ℕ) (k : GridKey) :
    (g.remove o).grid k =
      if g.objectMap o = some k then (g.grid k).erase o else g.grid k := by
  cases h : g.objectMap o with
  | none => simp [SpatialGrid.remove, h]
  | some key =>
    by_cases hk : k = key
    · subst hk
      simp [SpatialGrid.remove, h]
    · have hk2 : ¬key = k := fun hh => hk hh.symm
      simp [SpatialGrid.remove, h, hk, hk2]

theorem insert_grid (g : SpatialGrid) (o : ℕ) (p : Vec3) (k : GridKey) :
    (g.insert o p).grid k =
      if k = getGridKey g.cellSize p then
        (if o ∈ (g.remove o).grid (getGridKey g.cellSize p) then
           (g.remove o).grid (getGridKey g.cellSize p)
         else (g.remove o).grid (getGridKey g.cellSize p) ++ [o])
      else (g.remove o).grid k := rfl

theorem gridInv_remove {g : SpatialGrid} (h : GridInv g) (o : ℕ) : GridInv (g.remove o) := by
  obtain ⟨hmem, hnd⟩ := h
  constructor
  · intro o' k
    rw [remove_grid, remove_objectMap]
    by_cases ho : o' = o
    · subst ho
      rw [if_pos rfl]
      by_cases hsome : g.objectMap o' = some k
      · rw [if_pos hsome]
        simp [List.Nodup.mem_erase_iff (hnd k)]
      · rw [if_neg hsome]
        simp [hmem o' k, hsome]
    · rw [if_neg ho]
      by_cases hsome : g.objectMap o = some k
      · rw [if_pos hsome, List.mem_erase_of_ne ho]
        exact hmem o' k
      · rw [if_neg hsome]
        exact hmem o' k
  · intro k
    rw [remove_grid]
    by_cases hsome : g.objectMap o = some k
    · rw [if_pos hsome]
      exact (hnd k).erase o
    · rw [if_neg hsome]
      exact hnd k

theorem gridInv_insert {g : SpatialGrid} (h : GridInv g) (o : ℕ) (p : Vec3) :
    GridInv (g.insert o p) := by
  have h1 : GridInv (g.remove o) := gridInv_remove h o
  obtain ⟨hmem, hnd⟩ := h1
  have hnone : (g.remove o).objectMap o = none := by simp [remove_objectMap]
  have hnotin : ∀ k, o ∉ (g.remove o).grid k := by
    intro k hin
    rw [(hmem o k).mp hin] at hnone
    exact Option.noConfusion hnone
  constructor
  · intro o' k
    rw [insert_grid, insert_objectMap, if_neg (hnotin _)]
    by_cases hk : k = getGridKey g.cellSize p
    · rw [if_pos hk]
      subst hk
      by_cases ho : o' = o
      · subst ho
        simp
      · rw [if_neg ho]
        simp only [List.mem_append, List.mem_singleton, or_iff_left ho]
        exact hmem o' _
    · rw [if_neg hk]
      by_cases ho : o' = o
      · subst ho
        rw [if_pos rfl]
        constructor
        · intro hin
          exact absurd hin (hnotin k)
        · intro hcon
          exact absurd (Option.some_injective _ hcon).symm hk
      · rw [if_neg ho]
        exact hmem o' k
  · intro k
    rw [insert_grid, if_neg (hnotin _)]
    by_cases hk : k = getGridKey g.cellSize p
    · rw [if_pos hk]
      simp only [List.nodup_append, List.nodup_singleton, true_and]
      exact ⟨hnd _, by simp [List.disjoint_singleton, hnotin _]⟩
    · rw [if_neg hk]
      exact hnd k

/-! ## Spatial-index state under game operations (claim C2)

The spatial index changes through CollisionSystem.updateObject (which calls
SpatialGrid.insert for every non-wall entity) and removeObject.  A per-frame
Snake.update (src/JS/core/Snake.js, lines 278-356) moves every segment and
the head, but calls collisionSystem.updateObject only when this.isPlayer is
true (lines 330-332 and 353-355); for a shadow snake the entity positions
change with no spatial-index call at all.  The operation language below
records exactly these effects; the concrete new positions (produced in the
source by the Catmull-Rom path and wiggle arithmetic) are parameters of the
operations, since the invariant claim quantifies over every position. -/

structure IndexState where
  grid : SpatialGrid
  /-- The current .position of each entity (the field the source mutates). -/
  curPos : ℕ → Option Vec3
  /-- The position passed at the entity's most recent spatial-index insert. -/
  lastIns : ℕ → Option Vec3

inductive GridOp where
  /-- collisionSystem.updateObject on a non-wall entity: spatialGrid.insert. -/
  | insertObject (object : ℕ) (position : Vec3)
  /-- collisionSystem.removeObject on a non-wall entity: spatialGrid.remove. -/
  | removeObject (object : ℕ)
  /-- Snake.update of the player snake: every segment and the head are moved
  and re-inserted via updateObject (Snake.js lines 330-332, 353-355). -/
  | playerSnakeUpdate (entries : List (ℕ × Vec3))
  /-- Snake.update of a shadow snake: segments and head are moved, but the
  isPlayer guard skips every updateObject call, so only positions change. -/
  | shadowSnakeUpdate (entries : List (ℕ × Vec3))

def applyInsert (s : IndexState) (o : ℕ) (p : Vec3) : IndexState :=
  { grid := s.grid.insert o p
    curPos := fun o' => if o' = o then some p else s.curPos o'
    lastIns := fun o' => if o' = o then some p else s.lastIns o' }

def applyOp (s : IndexState) : GridOp → IndexState
  | .insertObject o p => applyInsert s o p
  | .removeObject o => { s with grid := s.grid.remove o }
  | .playerSnakeUpdate entries =>
      entries.foldl (fun st e => applyInsert st e.1 e.2) s
  | .shadowSnakeUpdate entries =>
      { s with
        curPos := entries.foldl
          (fun cp e => fun o' => if o' = e.1 then some e.2 else cp o') s.curPos }

def runOps (ops : List GridOp) (s : IndexState) : IndexState :=
  ops.foldl applyOp s

def initIndexState (cellSize : ℚ) : IndexState :=
  ⟨SpatialGrid.empty cellSize, fun _ => none, fun _ => none⟩

/-- The internal invariant carried through every operation: the grid is
well-formed, its cell size never changes, and every tracked entity's cell is
the one computed from the position of its most recent insertion. -/
def IndexInv (cellSize : ℚ) (s : IndexState) : Prop :=
  s.grid.cellSize = cellSize ∧ GridInv s.grid ∧
    ∀ o k, s.grid.objectMap o = some k →
      ∃ p, s.lastIns o = some p ∧ k = getGridKey cellSize p

theorem indexInv_init (cellSize : ℚ) : IndexInv cellSize (initIndexState cellSize) := by
  refine ⟨rfl, ⟨fun o k => ?_, fun k => ?_⟩, fun o k h => Option.noConfusion h⟩
  · simp [initIndexState, SpatialGrid.empty]
  · simp [initIndexState, SpatialGrid.empty]

theorem indexInv_applyInsert {cellSize : ℚ} {s : IndexState} (h : IndexInv cellSize s)
    (o : ℕ) (p : Vec3) : IndexInv cellSize (applyInsert s o p) := by
  obtain ⟨hcs, hinv, hlast⟩ := h
  refine ⟨by simpa [applyInsert, insert_cellSize] using hcs, gridInv_insert hinv o p, ?_⟩
  intro o' k hk
  rw [applyInsert] at hk ⊢
  simp only at hk ⊢
  rw [insert_objectMap] at hk
  by_cases ho : o' = o
  · rw [if_pos ho] at hk
    refine ⟨p, by simp [ho], ?_⟩
    rw [hcs] at hk
    exact (Option.some_injective _ hk).symm
  · rw [if_neg ho, remove_objectMap, if_neg ho] at hk
    obtain ⟨q, hq, hkq⟩ := hlast o' k hk
    exact ⟨q, by simp [ho, hq], hkq⟩

theorem indexInv_applyOp {cellSize : ℚ} {s : IndexState} (h : IndexInv cellSize s)
    (op : GridOp) : IndexInv cellSize (applyOp s op) := by
  cases op with
  | insertObject o p => exact indexInv_applyInsert h o p
  | removeObject o =>
    obtain ⟨hcs, hinv, hlast⟩ := h
    simp only [applyOp]
    refine ⟨by simpa [remove_cellSize] using hcs, gridInv_remove hinv o, ?_⟩
    intro o' k hk
    simp only [remove_objectMap] at hk
    by_cases ho : o' = o
    · rw [if_pos ho] at hk
      exact Option.noConfusion hk
    · rw [if_neg ho] at hk
      exact hlast o' k hk
  | playerSnakeUpdate entries =>
    simp only [applyOp]
    induction entries generalizing s with
    | nil => exact h
    | cons e rest ih => exact ih (indexInv_applyInsert h e.1 e.2)
  | shadowSnakeUpdate entries =>
    obtain ⟨hcs, hinv, hlast⟩ := h
    exact ⟨hcs, hinv, hlast⟩

theorem indexInv_runOps {cellSize : ℚ} (ops : List GridOp) {s : IndexState}
    (h : IndexInv cellSize s) : IndexInv cellSize (runOps ops s) := by
  induction ops generalizing s with
  | nil => exact h
  | cons op rest ih => exact ih (indexInv_applyOp h op)

/-- Claim C2 as the spec states it: every tracked entity's cell is keyed by
floor(pos/cellSize) of the entity's CURRENT position. -/
def TrackedCellMatchesCurrent (cellSize : ℚ) (s : IndexState) : Prop :=
  ∀ o k, s.grid.objectMap o = some k →
    ∃ p, s.curPos o = some p ∧ k = getGridKey cellSize p

/-- The operation sequence refuting C2 as stated: a shadow snake's segment
(entity 7) is inserted at (9,0,0) when the segment is created, then one
Snake.update of the shadow snake moves it to (11,0,0); the non-player branch
of Snake.update issues no spatial-index call, so the tracked cell goes stale. -/
def c2ops : List GridOp :=
  [GridOp.insertObject 7 ⟨9, 0, 0⟩, GridOp.shadowSnakeUpdate [(7, ⟨11, 0, 0⟩)]]

/-- Claim C2, counterexample: after inserting entity 7 at (9,0,0) (cell 0)
and one shadow-snake update moving it to (11,0,0) (cell 1), the entity is
still tracked in cell (0,0,0), which is not the cell of its current
position. -/
theorem C2_counterexample :
    ¬ TrackedCellMatchesCurrent 10 (runOps c2ops (initIndexState 10)) := by
  intro h
  have hmap : (runOps c2ops (initIndexState 10)).grid.objectMap 7 =
      some (GridKey.mk 0 0 0) := by
    norm_num [c2ops, runOps, applyOp, applyInsert, initIndexState, SpatialGrid.empty,
      SpatialGrid.insert, SpatialGrid.remove, getGridKey]
  have hcur : (runOps c2ops (initIndexState 10)).curPos 7 = some (Vec3.mk 11 0 0) := by
    norm_num [c2ops, runOps, applyOp, applyInsert, initIndexState, SpatialGrid.empty,
      SpatialGrid.insert, SpatialGrid.remove, getGridKey]
  obtain ⟨p, hp, hk⟩ := h 7 ⟨0, 0, 0⟩ hmap
  rw [hcur] at hp
  rw [← Option.some_injective _ hp] at hk
  have : getGridKey 10 (Vec3.mk 11 0 0) = GridKey.mk 1 0 0 := by
    norm_num [getGridKey]
  rw [this] at hk
  exact absurd hk (by simp)

/-- Claim C2 (amended): after any sequence of spatial-index insertions,
removals and per-frame snake updates, every tracked entity appears in
exactly one grid cell, namely the cell keyed by floor(p/cellSize) per axis
of the position p supplied at the entity's most recent insertion (for the
player snake's head and segments this is the current position, since the
player branch of Snake.update re-inserts them each frame; a shadow snake's
entities are not re-inserted and may be stale); an entity absent from the
index appears in no cell and is never returned by a proximity query, hence
is not collidable. -/
theorem C2_spatial_index_invariant (cellSize : ℚ) (ops : List GridOp) :
    (∀ o k, o ∈ (runOps ops (initIndexState cellSize)).grid.grid k ↔
        (runOps ops (initIndexState cellSize)).grid.objectMap o = some k) ∧
    (∀ o k, (runOps ops (initIndexState cellSize)).grid.objectMap o = some k →
        ∃ p, (runOps ops (initIndexState cellSize)).lastIns o = some p ∧
          k = getGridKey cellSize p) ∧
    (∀ o, (runOps ops (initIndexState cellSize)).grid.objectMap o = none →
        ∀ q r, o ∉ (runOps ops (initIndexState cellSize)).grid.getNearby q r) := by
  obtain ⟨hcs, ⟨hmem, hnd⟩, hlast⟩ := indexInv_runOps ops (indexInv_init cellSize)
  refine ⟨hmem, hlast, ?_⟩
  intro o hnone q r hin
  obtain ⟨k, _, hk⟩ := mem_getNearby.mp hin
  rw [(hmem o k).mp hk] at hnone
  exact Option.noConfusion hnone

/-! ## Query characterisation (claim C5) -/

/-- Modelled from the spec's wording for C5: the cell with key k (the box
[k*cs,(k+1)*cs] per axis) intersects the closed cube of side
2*cellRadius*cellSize centered on the center cell's midpoint.  Two closed
intervals [a1,b1], [a2,b2] intersect iff a1 ≤ b2 and a2 ≤ b1. -/
def cellIntersectsSpecCube (cs : ℚ) (c : GridKey) (cellRadius : ℤ) (k : GridKey) : Prop :=
  ((k.kx : ℚ) * cs ≤ ((c.kx : ℚ) + 1 / 2) * cs + (cellRadius : ℚ) * cs ∧
    ((c.kx : ℚ) + 1 / 2) * cs - (cellRadius : ℚ) * cs ≤ ((k.kx : ℚ) + 1) * cs) ∧
  ((k.ky : ℚ) * cs ≤ ((c.ky : ℚ) + 1 / 2) * cs + (cellRadius : ℚ) * cs ∧
    ((c.ky : ℚ) + 1 / 2) * cs - (cellRadius : ℚ) * cs ≤ ((k.ky : ℚ) + 1) * cs) ∧
  ((k.kz : ℚ) * cs ≤ ((c.kz : ℚ) + 1 / 2) * cs + (cellRadius : ℚ) * cs ∧
    ((c.kz : ℚ) + 1 / 2) * cs - (cellRadius : ℚ) * cs ≤ ((k.kz : ℚ) + 1) * cs)

theorem int_le_of_cast_le_add_half {a b : ℤ} (h : (a : ℚ) ≤ (b : ℚ) + 1 / 2) : a ≤ b := by
  by_contra hc
  push_neg at hc
  have h2 : (b : ℚ) + 1 ≤ (a : ℚ) := by exact_mod_cast hc
  linarith

theorem int_le_of_cast_sub_half_le {a b : ℤ} (h : (a : ℚ) - 1 / 2 ≤ (b : ℚ)) : a ≤ b := by
  by_contra hc
  push_neg at hc
  have h2 : (b : ℚ) + 1 ≤ (a : ℚ) := by exact_mod_cast hc
  linarith

theorem cellIntersectsSpecCube_iff_axis {cs : ℚ} (hcs : 0 < cs) {c r k : ℤ} :
    ((k : ℚ) * cs ≤ ((c : ℚ) + 1 / 2) * cs + (r : ℚ) * cs ∧
      ((c : ℚ) + 1 / 2) * cs - (r : ℚ) * cs ≤ ((k : ℚ) + 1) * cs) ↔
    (c - r ≤ k ∧ k ≤ c + r) := by
  constructor
  · rintro ⟨h1, h2⟩
    have h1' : (k : ℚ) ≤ (c : ℚ) + (r : ℚ) + 1 / 2 := by
      have := (mul_le_mul_right hcs).mp (by linarith : (k : ℚ) * cs ≤ ((c : ℚ) + (r : ℚ) + 1 / 2) * cs)
      linarith
    have h2' : (c : ℚ) - (r : ℚ) - 1 / 2 ≤ (k : ℚ) := by
      have := (mul_le_mul_right hcs).mp (by linarith : ((c : ℚ) - (r : ℚ) - 1 / 2) * cs ≤ (k : ℚ) * cs)
      linarith
    constructor
    · exact int_le_of_cast_sub_half_le (by push_cast; linarith)
    · exact int_le_of_cast_le_add_half (by push_cast; linarith)
  · rintro ⟨h1, h2⟩
    have h1' : ((c : ℚ) - (r : ℚ)) ≤ (k : ℚ) := by exact_mod_cast h1
    have h2' : (k : ℚ) ≤ (c : ℚ) + (r : ℚ) := by exact_mod_cast h2
    constructor
    · nlinarith
    · nlinarith

theorem cellIntersectsSpecCube_iff_mem {cs : ℚ} (hcs : 0 < cs) {c : GridKey} {r : ℤ}
    {k : GridKey} :
    cellIntersectsSpecCube cs c r k ↔ k ∈ nearbyKeys c r := by
  rw [mem_nearbyKeys, cellIntersectsSpecCube]
  rw [cellIntersectsSpecCube_iff_axis hcs, cellIntersectsSpecCube_iff_axis hcs,
    cellIntersectsSpecCube_iff_axis hcs]
  constructor
  · rintro ⟨⟨a1, a2⟩, ⟨b1, b2⟩, ⟨c1, c2⟩⟩
    exact ⟨a1, a2, b1, b2, c1, c2⟩
  · rintro ⟨a1, a2, b1, b2, c1, c2⟩
    exact ⟨⟨a1, a2⟩, ⟨b1, b2⟩, ⟨c1, c2⟩⟩

/-- One axis of the superset argument: moving at most r in a coordinate moves
the floor cell index by at most ceil(r/cs). -/
theorem floor_cell_bound {cs p q r : ℚ} (hcs : 0 < cs) (h : |q - p| ≤ r) :
    ⌊p / cs⌋ - ⌈r / cs⌉ ≤ ⌊q / cs⌋ ∧ ⌊q / cs⌋ ≤ ⌊p / cs⌋ + ⌈r / cs⌉ := by
  obtain ⟨hlo, hhi⟩ := abs_le.mp h
  constructor
  · have h1 : p / cs - (⌈r / cs⌉ : ℚ) ≤ q / cs := by
      have hr : r / cs ≤ (⌈r / cs⌉ : ℚ) := Int.le_ceil _
      have hq : p / cs - r / cs ≤ q / cs := by
        rw [div_sub_div_same, div_le_div_iff₀ hcs hcs]
        nlinarith
      linarith
    calc ⌊p / cs⌋ - ⌈r / cs⌉ = ⌊p / cs - (⌈r / cs⌉ : ℚ)⌋ := (Int.floor_sub_int _ _).symm
      _ ≤ ⌊q / cs⌋ := Int.floor_le_floor h1
  · have h1 : q / cs ≤ p / cs + (⌈r / cs⌉ : ℚ) := by
      have hr : r / cs ≤ (⌈r / cs⌉ : ℚ) := Int.le_ceil _
      have hq : q / cs ≤ p / cs + r / cs := by
        rw [div_add_div_same, div_le_div_iff₀ hcs hcs]
        nlinarith
      linarith
    calc ⌊q / cs⌋ ≤ ⌊p / cs + (⌈r / cs⌉ : ℚ)⌋ := Int.floor_le_floor h1
      _ = ⌊p / cs⌋ + ⌈r / cs⌉ := Int.floor_add_int _ _

/-- Claim C5: for every position and radius r ≥ 0 the query returns exactly
the distinct tracked entities stored in the cells intersecting the cube of
side 2*ceil(r/cellSize)*cellSize centered on the position's cell, and this
is a superset of the tracked entities whose stored position is within true
Euclidean distance r of the query position. -/
theorem C5_getNearby_contract (g : SpatialGrid) (position : Vec3) (radius : ℚ)
    (hcs : 0 < g.cellSize) (hr : 0 ≤ radius) :
    (∀ e, e ∈ g.getNearby position radius ↔
        ∃ k, cellIntersectsSpecCube g.cellSize (getGridKey g.cellSize position)
            ⌈radius / g.cellSize⌉ k ∧ e ∈ g.grid k) ∧
    (g.getNearby position radius).Nodup ∧
    (∀ e q, e ∈ g.grid (getGridKey g.cellSize q) →
        distanceSquared position q ≤ radius ^ 2 →
        e ∈ g.getNearby position radius) := by
  refine ⟨?_, nodup_getNearby, ?_⟩
  · intro e
    rw [mem_getNearby]
    constructor
    · rintro ⟨k, hk, he⟩
      exact ⟨k, (cellIntersectsSpecCube_iff_mem hcs).mpr hk, he⟩
    · rintro ⟨k, hk, he⟩
      exact ⟨k, (cellIntersectsSpecCube_iff_mem hcs).mp hk, he⟩
  · intro e q hmem hd
    simp only [distanceSquared] at hd
    have hdx : |q.x - position.x| ≤ radius := by
      rw [abs_le]
      constructor <;> nlinarith
    have hdy : |q.y - position.y| ≤ radius := by
      rw [abs_le]
      constructor <;> nlinarith
    have hdz : |q.z - position.z| ≤ radius := by
      rw [abs_le]
      constructor <;> nlinarith
    rw [mem_getNearby]
    refine ⟨getGridKey g.cellSize q, ?_, hmem⟩
    rw [mem_nearbyKeys]
    obtain ⟨hx1, hx2⟩ := floor_cell_bound hcs hdx
    obtain ⟨hy1, hy2⟩ := floor_cell_bound hcs hdy
    obtain ⟨hz1, hz2⟩ := floor_cell_bound hcs hdz
    exact ⟨by simpa [getGridKey] using hx1, by simpa [getGridKey] using hx2,
      by simpa [getGridKey] using hy1, by simpa [getGridKey] using hy2,
      by simpa [getGridKey] using hz1, by simpa [getGridKey] using hz2⟩

def c5grid : SpatialGrid := (SpatialGrid.empty 10).insert 3 ⟨0, 0, 0⟩

/-- Witness for C5: entity 3 stored at the origin is returned by a query of
radius 2 from (1,0,0). -/
theorem C5_getNearby_contract_witness : 3 ∈ c5grid.getNearby ⟨1, 0, 0⟩ 2 := by
  refine (C5_getNearby_contract c5grid ⟨1, 0, 0⟩ 2 (by norm_num [c5grid, SpatialGrid.insert,
    SpatialGrid.remove, SpatialGrid.empty]) (by norm_num)).2.2 3 ⟨0, 0, 0⟩ ?_ ?_
  · norm_num [c5grid, SpatialGrid.insert, SpatialGrid.remove, SpatialGrid.empty, getGridKey]
  · norm_num [distanceSquared]

/-! ## Collision classification and resolution (claims C1, C10)

CollisionSystem.checkCollisions (src/JS/systems/CollisionSystem.js, lines
199-254) classifies; Game._checkCollisions (the orchestrator, lines 694-750)
resolves.  Entities are ids resolved to their data through an objs map.
The JS events store the Euclidean distance; the model stores the squared
distance, and the comparison distance < COLLISION_DISTANCE is taken in the
equivalent squared form. -/

inductive MaterialKind where
  | shaderMaterial
  | lineBasicMaterial
  | meshBasicMaterial
  | meshPhysicalMaterial
  | pointsMaterial
  | noMaterial
deriving DecidableEq, Repr

structure Obj where
  hasParent : Bool
  material : MaterialKind
  position : Vec3
deriving DecidableEq, Repr

/-- CollisionSystem._isWallObject: parentless objects are not walls; shader
or line-basic materials are walls; otherwise membership in the externally
supplied face list (face.mesh / face.line handles) decides. -/
def isWallObject (objs : ℕ → Obj) (faces : List ℕ) (o : ℕ) : Bool :=
  if !(objs o).hasParent then false
  else if (objs o).material = MaterialKind.shaderMaterial then true
  else if (objs o).material = MaterialKind.lineBasicMaterial then true
  else decide (o ∈ faces)

structure SnakeRec where
  id : ℕ
  headId : ℕ
  segments : List ℕ
  isPlayer : Bool
  nibblesEaten : ℕ
deriving DecidableEq, Repr

inductive CollisionEvent where
  | playerCollision (object : ℕ) (distanceSq : ℚ)
  | shadowCollision (snake : SnakeRec) (object : ℕ) (distanceSq : ℚ)
deriving DecidableEq, Repr

/-- CollisionSystem.checkCollisions.  The JS guard obj === playerSnake can
never fire (a Snake instance is not a THREE.Object3D and is never inserted
into the grid), so it has no counterpart here. -/
def checkCollisions (grid : SpatialGrid) (objs : ℕ → Obj) (faces : List ℕ)
    (playerSnake : Option SnakeRec) (shadowSnakes : List SnakeRec) : List CollisionEvent :=
  match playerSnake with
  | none => []
  | some ps =>
    let headPos := (objs ps.headId).position
    let nearbyObjects := grid.getNearby headPos (COLLISION_DISTANCE * 2)
    let playerEvents := nearbyObjects.filterMap (fun o =>
      if o = ps.headId then none
      else if isWallObject objs faces o then none
      else if o ∈ ps.segments then none
      else
        let dsq := distanceSquared headPos (objs o).position
        if dsq < COLLISION_DISTANCE ^ 2 then some (CollisionEvent.playerCollision o dsq)
        else none)
    let shadowEvents := shadowSnakes.flatMap (fun shadow =>
      let shadowHeadPos := (objs shadow.headId).position
      (grid.getNearby shadowHeadPos (COLLISION_DISTANCE * 2)).filterMap (fun o =>
        if o = shadow.headId then none
        else if isWallObject objs faces o then none
        else
          let dsq := distanceSquared shadowHeadPos (objs o).position
          if dsq < COLLISION_DISTANCE ^ 2 then
            some (CollisionEvent.shadowCollision shadow o dsq)
          else none))
    playerEvents ++ shadowEvents

/-- Index of a segment id in a segment list (Array.prototype.indexOf; only
used under an includes guard, so the missing case is never reached). -/
def segIndex (o : ℕ) : List ℕ → ℕ
  | [] => 0
  | s :: rest => if s = o then 0 else segIndex o rest + 1

/-- The game state touched by Game._checkCollisions / _dissolveSnake. -/
structure ResolveState where
  shadows : List SnakeRec
  playerDissolved : Bool
  dissolved : List ℕ
deriving DecidableEq, Repr

/-- The game-state effect of Game._dissolveSnake: the player's dissolution
sets the game-over flag; a shadow snake is filtered out of the shadow list.
(The nibble drops it also performs are modelled separately for claim C9.) -/
def dissolveInState (st : ResolveState) (s : SnakeRec) : ResolveState :=
  if s.isPlayer then
    { st with playerDissolved := true, dissolved := st.dissolved ++ [s.id] }
  else
    { st with shadows := st.shadows.filter (fun t => t.id != s.id),
              dissolved := st.dissolved ++ [s.id] }

/-- Game._checkCollisions, the resolution loop over the classified events
(src/unnamed/part_002, lines 701-749): a player hit on any current shadow's
segment, or on the player's own segment at index ≥ 10, dissolves the player
and stops; a shadow hit on a player segment or another current shadow's
segment dissolves that shadow; a shadow hit on its own segment dissolves it
only at index ≥ 10. -/
def resolveCollisions (player : SnakeRec) : List CollisionEvent → ResolveState → ResolveState
  | [], st => st
  | ev :: rest, st =>
    match ev with
    | .playerCollision o _ =>
      if o = player.headId then resolveCollisions player rest st
      else if st.shadows.any (fun sh => decide (o ∈ sh.segments)) then
        dissolveInState st player
      else if o ∈ player.segments ∧ 10 ≤ segIndex o player.segments then
        dissolveInState st player
      else resolveCollisions player rest st
    | .shadowCollision shadow o _ =>
      if o = shadow.headId then resolveCollisions player rest st
      else if o ∈ player.segments then
        resolveCollisions player rest (dissolveInState st shadow)
      else
        let st1 := if st.shadows.any (fun t => decide (t.id ≠ shadow.id ∧ o ∈ t.segments)) then
          dissolveInState st shadow else st
        let st2 := if o ∈ shadow.segments ∧ 10 ≤ segIndex o shadow.segments then
          dissolveInState st1 shadow else st1
        resolveCollisions player rest st2

/-! ## Claim C1: the self-collision rule -/

/-- Entity data for the C1 scenario: entity 100 is the player head at the
origin; entities 1..11 are the player's segments, with segment 11 (the
eleventh, list index 10) one unit from the head and the others far away on
the z axis. -/
def c1objs : ℕ → Obj := fun o =>
  if o = 100 then ⟨true, MaterialKind.meshPhysicalMaterial, ⟨0, 0, 0⟩⟩
  else if o = 11 then ⟨true, MaterialKind.meshBasicMaterial, ⟨1, 0, 0⟩⟩
  else ⟨true, MaterialKind.meshBasicMaterial, ⟨0, 0, 30 + 2 * o⟩⟩

def c1entities : List ℕ := [100, 1, 2, 3, 4, 5, 6, 7, 8, 9, 10, 11]

def c1grid : SpatialGrid :=
  c1entities.foldl (fun g o => g.insert o (c1objs o).position) (SpatialGrid.empty 10)

def c1player : SnakeRec :=
  ⟨0, 100, [1, 2, 3, 4, 5, 6, 7, 8, 9, 10, 11], true, 0⟩

/-- Claim C1, evaluated at the failing input: the player's head is within
COLLISION_DISTANCE of its own segment at list index 10, yet the frame's
collision classification produces no event at all (checkCollisions filters
the player's own segments out of the player's candidates), so the player is
not dissolved — the claim requires dissolution at index ≥ 10. -/
theorem C1_player_self_hit_no_dissolve :
    distanceSquared (c1objs 100).position (c1objs 11).position < COLLISION_DISTANCE ^ 2 ∧
    segIndex 11 c1player.segments = 10 ∧
    checkCollisions c1grid c1objs [] (some c1player) [] = [] ∧
    (resolveCollisions c1player
        (checkCollisions c1grid c1objs [] (some c1player) [])
        ⟨[], false, []⟩).playerDissolved = false := by
  have hc : (⌈(9 : ℚ) / 25⌉ : ℤ) = 1 := by
    rw [Int.ceil_eq_iff]
    norm_num
  have ht : (3 : ℤ).toNat = 3 := rfl
  refine ⟨by norm_num [c1objs, distanceSquared, COLLISION_DISTANCE],
    by norm_num [c1player, segIndex], ?_, ?_⟩
  · norm_num [checkCollisions, c1grid, c1entities, c1objs, c1player, SpatialGrid.getNearby,
      SpatialGrid.insert, SpatialGrid.remove, SpatialGrid.empty, getGridKey, nearbyKeys,
      intRange, addAllToSet, isWallObject, distanceSquared, COLLISION_DISTANCE, hc,
      Int.toNat_ofNat, ht, List.range_succ, List.range_zero]
  · norm_num [checkCollisions, c1grid, c1entities, c1objs, c1player, SpatialGrid.getNearby,
      SpatialGrid.insert, SpatialGrid.remove, SpatialGrid.empty, getGridKey, nearbyKeys,
      intRange, addAllToSet, isWallObject, distanceSquared, COLLISION_DISTANCE, hc,
      Int.toNat_ofNat, ht, List.range_succ, List.range_zero, resolveCollisions]

/-! ## Nibble safe-spawn loop (claim C3)

NibbleManager.spawn (src/unnamed/part_003, lines 71-123) and the identical
spawnNibble (src/unnamed/part_000, lines 1106-1163).  The Math.random draws
are modelled as a stream of sampled points; the do/while loop is given as a
fuel-indexed function where the second argument is the number of attempts
already made (the tries counter before the iteration), so that running out
of fuel (result none) means the loop is still running after that many
iterations. -/

/-- The isNearWall test of the spawn loop: some coordinate is within
SAFE_WALL_DISTANCE of a face. -/
def spawnSampleNearWall (p : Vec3) : Bool :=
  decide (CUBE_HALF_SIZE - SAFE_WALL_DISTANCE < |p.x|) ||
  decide (CUBE_HALF_SIZE - SAFE_WALL_DISTANCE < |p.y|) ||
  decide (CUBE_HALF_SIZE - SAFE_WALL_DISTANCE < |p.z|)

/-- The spatial-index based safety test: no tracked object returned by the
query is within SAFE_OBJECT_DISTANCE (squared comparison as in the source). -/
def spawnSampleSafe (grid : SpatialGrid) (objs : ℕ → Obj) (p : Vec3) : Bool :=
  (grid.getNearby p (SAFE_OBJECT_DISTANCE * 2)).all (fun o =>
    !decide (distanceSquared p (objs o).position < SAFE_OBJECT_DISTANCE * SAFE_OBJECT_DISTANCE))

/-- One-to-one image of the do/while loop of spawn().  On a sample near a
wall the source does tries++ and continue, re-entering the loop WITHOUT
visiting the tries > maxTries break; on other samples it computes isSafe,
does tries++, breaks (accepting the point) once tries > 100, and otherwise
accepts exactly the safe points. -/
def spawnLoop (grid : SpatialGrid) (objs : ℕ → Obj) (samples : ℕ → Vec3) :
    ℕ → ℕ → Option Vec3
  | 0, _ => none
  | fuel + 1, i =>
    let position := samples i
    if spawnSampleNearWall position then
      spawnLoop grid objs samples fuel (i + 1)
    else if 100 < i + 1 then some position
    else if spawnSampleSafe grid objs position then some position
    else spawnLoop grid objs samples fuel (i + 1)

/-- The all-near-wall sample stream: every draw lands at (0,0,49.5), which
is within SAFE_WALL_DISTANCE = 2 of the +z face of the half-size-50 cube. -/
def c3samples : ℕ → Vec3 := fun _ => ⟨0, 0, 99 / 2⟩

def c3objs : ℕ → Obj := fun _ => ⟨true, MaterialKind.meshBasicMaterial, ⟨0, 0, 0⟩⟩

/-- Claim C3, evaluated at the failing input: for the sample stream that
always draws a point near a wall, the spawn loop never terminates — no
amount of fuel makes it return — because the near-wall branch skips the
tries > 100 fallback check entirely.  The claim says the loop accepts a
point after at most 100 attempts for ANY sequence of sampled points. -/
theorem C3_spawn_loop_unbounded :
    spawnSampleNearWall ⟨0, 0, 99 / 2⟩ = true ∧
    ∀ fuel i, spawnLoop (SpatialGrid.empty 10) c3objs c3samples fuel i = none := by
  have hwall : spawnSampleNearWall ⟨0, 0, 99 / 2⟩ = true := by
    have : |(99 : ℚ) / 2| = 99 / 2 := abs_of_nonneg (by norm_num)
    norm_num [spawnSampleNearWall, CUBE_HALF_SIZE, CUBE_SIZE, SAFE_WALL_DISTANCE, this]
  refine ⟨hwall, ?_⟩
  intro fuel
  induction fuel with
  | zero => intro i; rfl
  | succ n ih =>
    intro i
    rw [spawnLoop]
    simp only [c3samples, hwall, if_true]
    exact ih (i + 1)

/-! ## AI wall avoidance (claim C4)

The claim cites two implementations.  The modular one: Snake._avoidWalls
(src/JS/core/Snake.js, lines 444-496) together with the AI-steering block of
its Snake.update (lines 286-292).  The monolithic one: Snake.update of
src/unnamed/part_000 (lines 743-797), whose AI block (lines 751-754) calls
only seekNibbles — that module contains no wall-avoidance step at all
(WALL_BUFFER is declared at part_000 line 389 and never used).  Both are
embedded below.  Head state is the data the steering code mutates: the
position, the Euler angles head.rotation.x / head.rotation.y, and the
speed.  Math.atan2 and Math.sqrt have no exact rational counterpart, so
they are parameters; every property under test (which steps run, the
clamping, the gain factors, and that nibble-seeking never moves the
position) is independent of their values. -/

structure HeadState where
  position : Vec3
  rotX : ℚ
  rotY : ℚ
  speed : ℚ
deriving DecidableEq, Repr

/-- One component of the steering accumulator of _avoidWalls: -1 past the
positive safe boundary, +1 past the negative one, else 0. -/
def steerComp (safeBoundary v : ℚ) : ℚ :=
  if safeBoundary < v then -1 else if v < -safeBoundary then 1 else 0

/-- Snake._avoidWalls (modular implementation only): when some axis exceeds
CUBE_HALF_SIZE - WALL_BUFFER, clamp the position into
[-(CUBE_HALF_SIZE - SEGMENT_RADIUS), CUBE_HALF_SIZE - SEGMENT_RADIUS] per
axis and steer yaw toward atan2(steer.x, steer.z) with gain 0.12 and pitch
toward the steering elevation with gain 0.12 * 0.5. -/
def avoidWalls (atan2 : ℚ → ℚ → ℚ) (sqrtQ : ℚ → ℚ) (h : HeadState) : HeadState :=
  let safeBoundary := CUBE_HALF_SIZE - WALL_BUFFER
  let sx := steerComp safeBoundary h.position.x
  let sy := steerComp safeBoundary h.position.y
  let sz := steerComp safeBoundary h.position.z
  if sx = 0 ∧ sy = 0 ∧ sz = 0 then h
  else
    let px := min (max h.position.x (-CUBE_HALF_SIZE + SEGMENT_RADIUS))
      (CUBE_HALF_SIZE - SEGMENT_RADIUS)
    let py := min (max h.position.y (-CUBE_HALF_SIZE + SEGMENT_RADIUS))
      (CUBE_HALF_SIZE - SEGMENT_RADIUS)
    let pz := min (max h.position.z (-CUBE_HALF_SIZE + SEGMENT_RADIUS))
      (CUBE_HALF_SIZE - SEGMENT_RADIUS)
    let len := sqrtQ (sx * sx + sy * sy + sz * sz)
    let nx := sx / len
    let ny := sy / len
    let nz := sz / len
    let targetRotation := atan2 nx nz
    let rotationSpeed : ℚ := 12 / 100
    let rotY := h.rotY + (targetRotation - h.rotY) * rotationSpeed
    let targetYRotation := atan2 (-ny) (sqrtQ (nx * nx + nz * nz))
    let rotX := h.rotX + (targetYRotation - h.rotX) * (rotationSpeed * (1 / 2))
    ⟨⟨px, py, pz⟩, rotX, rotY, h.speed⟩

/-- The AI-steering block of the modular Snake.update (src/JS/core/Snake.js,
lines 286-292): for a non-player snake, seek nibbles unless in the initial
reflection phase, then always avoid walls; a player snake gets neither. -/
def updateAISteeringModular (isPlayer isInitialReflectionPhase : Bool)
    (seek : HeadState → HeadState) (atan2 : ℚ → ℚ → ℚ) (sqrtQ : ℚ → ℚ)
    (h : HeadState) : HeadState :=
  if !isPlayer then
    avoidWalls atan2 sqrtQ (if !isInitialReflectionPhase then seek h else h)
  else h

/-- The closest-nibble scan of seekNibbles: fold over the nibble list
keeping the first strict minimum, with squared distances (strict comparisons
of the source's Euclidean distances coincide with those of their squares).
The source initialises closestDistance to Infinity, so the first nibble
always becomes the candidate. -/
def closestNibbleSq (headPos : Vec3) (nibbles : List Vec3) : Option (Vec3 × ℚ) :=
  nibbles.foldl (fun acc nib =>
    let d := distanceSquared headPos nib
    match acc with
    | none => some (nib, d)
    | some (_, bd) => if d < bd then some (nib, d) else acc) none

/-- Snake._seekNibbles (src/JS/core/Snake.js, lines 393-438) and the
identical monolithic seekNibbles (src/unnamed/part_000, lines 839-892): on
an empty nibble list, return unchanged; otherwise find the closest nibble;
farther than 2 units, steer yaw toward it at gain 0.08 (plus a random
offset) and pitch at gain 0.04; within 2 units, halve the speed to
shadowSpeed * 0.5.  The source's idle-wander else branch needs a nonempty
list with no closest element, which cannot happen (every entry carries a
position), so it has no reachable counterpart here.  The distance > 2 test
is taken in the equivalent squared form.  Note: no branch ever writes the
position. -/
def seekNibbles (atan2 : ℚ → ℚ → ℚ) (sqrtQ : ℚ → ℚ)
    (randomOffset shadowSpeed : ℚ) (nibbles : List Vec3) (h : HeadState) : HeadState :=
  match closestNibbleSq h.position nibbles with
  | none => h
  | some (nib, dsq) =>
    if 2 ^ 2 < dsq then
      let dx := nib.x - h.position.x
      let dy := nib.y - h.position.y
      let dz := nib.z - h.position.z
      let len := sqrtQ (dx * dx + dy * dy + dz * dz)
      let nx := dx / len
      let ny := dy / len
      let nz := dz / len
      let targetRotation := atan2 nx nz
      let rotationSpeed : ℚ := 8 / 100
      let rotY := h.rotY + (targetRotation - h.rotY + randomOffset) * rotationSpeed
      let targetYRotation := atan2 (-ny) (sqrtQ (nx * nx + nz * nz))
      let rotX := h.rotX + (targetYRotation - h.rotX) * (rotationSpeed * (1 / 2))
      ⟨h.position, rotX, rotY, h.speed⟩
    else
      ⟨h.position, h.rotX, h.rotY, shadowSpeed * (1 / 2)⟩

/-- The AI block of the monolithic Snake.update (src/unnamed/part_000,
lines 751-754): only nibble-seeking, and only outside the initial
reflection phase.  There is no wall-avoidance call in this implementation. -/
def updateAISteeringMonolithic (isPlayer isInitialReflectionPhase : Bool)
    (atan2 : ℚ → ℚ → ℚ) (sqrtQ : ℚ → ℚ) (randomOffset shadowSpeed : ℚ)
    (nibbles : List Vec3) (h : HeadState) : HeadState :=
  if !isPlayer && !isInitialReflectionPhase then
    seekNibbles atan2 sqrtQ randomOffset shadowSpeed nibbles h
  else h

/-- The trigger condition of _avoidWalls: some coordinate exceeds the safe
boundary CUBE_HALF_SIZE - WALL_BUFFER in absolute value. -/
def exceedsSafeBand (p : Vec3) : Prop :=
  CUBE_HALF_SIZE - WALL_BUFFER < |p.x| ∨ CUBE_HALF_SIZE - WALL_BUFFER < |p.y| ∨
    CUBE_HALF_SIZE - WALL_BUFFER < |p.z|

/-- Nibble-seeking never changes the head position: every branch of
seekNibbles copies it through. -/
theorem seekNibbles_position (atan2 : ℚ → ℚ → ℚ) (sqrtQ : ℚ → ℚ)
    (randomOffset shadowSpeed : ℚ) (nibbles : List Vec3) (h : HeadState) :
    (seekNibbles atan2 sqrtQ randomOffset shadowSpeed nibbles h).position = h.position := by
  rw [seekNibbles]
  cases hc : closestNibbleSq h.position nibbles with
  | none => rfl
  | some p =>
    obtain ⟨nib, dsq⟩ := p
    by_cases hd : (2 : ℚ) ^ 2 < dsq
    · simp only [if_pos hd]
    · simp only [if_neg hd]

/-- The monolithic AI block never changes the head position — in particular
it contains no wall-avoidance clamp, in either AI mode. -/
theorem updateAISteeringMonolithic_position (phase : Bool) (atan2 : ℚ → ℚ → ℚ)
    (sqrtQ : ℚ → ℚ) (randomOffset shadowSpeed : ℚ) (nibbles : List Vec3)
    (h : HeadState) :
    (updateAISteeringMonolithic false phase atan2 sqrtQ randomOffset shadowSpeed
      nibbles h).position = h.position := by
  rw [updateAISteeringMonolithic]
  cases phase with
  | false => exact seekNibbles_position _ _ _ _ _ _
  | true => rfl

/-- Claim C4, counterexample.  A non-player head at (47,0,0) exceeds the
safe band (half-extent - WALL_BUFFER = 45) on x, yet: in the modular
implementation the wall-avoidance step leaves x at 47 — it is NOT clamped
back within the safe band (the source clamps to CUBE_HALF_SIZE -
SEGMENT_RADIUS = 49.2 instead); and in the cited monolithic implementation
(part_000 Snake.update) the whole position is left untouched, because that
implementation has no wall-avoidance step for the claimed per-frame run to
perform. -/
theorem C4_counterexample :
    exceedsSafeBand (Vec3.mk 47 0 0) ∧
    (updateAISteeringModular false false (fun s => s) (fun _ _ => 0) (fun _ => 0)
        ⟨⟨47, 0, 0⟩, 0, 0, 0⟩).position.x = 47 ∧
    ¬ |(updateAISteeringModular false false (fun s => s) (fun _ _ => 0) (fun _ => 0)
        ⟨⟨47, 0, 0⟩, 0, 0, 0⟩).position.x| ≤ CUBE_HALF_SIZE - WALL_BUFFER ∧
    (updateAISteeringMonolithic false false (fun _ _ => 0) (fun _ => 0) 0 0 []
        ⟨⟨47, 0, 0⟩, 0, 0, 0⟩).position = ⟨47, 0, 0⟩ := by
  have h47 : |(47 : ℚ)| = 47 := abs_of_nonneg (by norm_num)
  refine ⟨?_, ?_, ?_, ?_⟩
  · exact Or.inl (by rw [h47]; norm_num [CUBE_HALF_SIZE, CUBE_SIZE, WALL_BUFFER])
  · norm_num [updateAISteeringModular, avoidWalls, steerComp, CUBE_HALF_SIZE, CUBE_SIZE,
      WALL_BUFFER, SEGMENT_RADIUS]
  · norm_num [updateAISteeringModular, avoidWalls, steerComp, CUBE_HALF_SIZE, CUBE_SIZE,
      WALL_BUFFER, SEGMENT_RADIUS, h47]
  · exact updateAISteeringMonolithic_position false _ _ _ _ _ _

theorem steerComp_ne_zero {sb v : ℚ} (h : sb < |v|) : steerComp sb v ≠ 0 := by
  rcases lt_abs.mp h with h1 | h1
  · simp [steerComp, h1]
  · have h2 : v < -sb := by linarith
    by_cases h3 : sb < v
    · simp [steerComp, h3]
    · simp [steerComp, h3, h2]

theorem abs_min_max_le {v hi : ℚ} (hhi : 0 ≤ hi) : |min (max v (-hi)) hi| ≤ hi := by
  rw [abs_le]
  exact ⟨le_min (le_trans (le_refl _) (le_max_right _ _)) (by linarith), min_le_right _ _⟩

/-- The source's update-order of the AI steering inputs: the head state a
non-player snake presents to _avoidWalls is the seek-adjusted state outside
the initial reflection phase and the unadjusted state inside it. -/
def preSteer (isInitialReflectionPhase : Bool) (seek : HeadState → HeadState)
    (h : HeadState) : HeadState :=
  if !isInitialReflectionPhase then seek h else h

/-- Claim C4 (amended).  Modular implementation (src/JS/core/Snake.js): on
every update of a non-player snake — in either AI mode, i.e. for both
values of isInitialReflectionPhase — the wall-avoidance step runs, and
whenever the (possibly seek-adjusted) head position exceeds half-extent -
WALL_BUFFER = 45 in absolute value on some axis it clamps every coordinate
into [-(CUBE_HALF_SIZE - SEGMENT_RADIUS), CUBE_HALF_SIZE - SEGMENT_RADIUS]
= [-49.2, 49.2] (NOT into the safe band) and steers yaw toward the inward
steering direction at gain 0.12 and pitch at gain 0.12 * 0.5 = 0.06.
Monolithic implementation (src/unnamed/part_000 Snake.update): no
wall-avoidance step exists; the non-player AI block applies only
nibble-seeking, which never changes the head position, so a head beyond the
safe band is left exactly where it is by the AI block in either AI mode. -/
theorem C4_wall_avoidance_amended (atan2 : ℚ → ℚ → ℚ) (sqrtQ : ℚ → ℚ) (phase : Bool)
    (seek : HeadState → HeadState) (h : HeadState)
    (randomOffset shadowSpeed : ℚ) (nibbles : List Vec3) (hmono : HeadState)
    (hex : exceedsSafeBand (preSteer phase seek h).position) :
    let pre := preSteer phase seek h
    let sx := steerComp (CUBE_HALF_SIZE - WALL_BUFFER) pre.position.x
    let sy := steerComp (CUBE_HALF_SIZE - WALL_BUFFER) pre.position.y
    let sz := steerComp (CUBE_HALF_SIZE - WALL_BUFFER) pre.position.z
    let len := sqrtQ (sx * sx + sy * sy + sz * sz)
    updateAISteeringModular false phase seek atan2 sqrtQ h = avoidWalls atan2 sqrtQ pre ∧
    |(avoidWalls atan2 sqrtQ pre).position.x| ≤ CUBE_HALF_SIZE - SEGMENT_RADIUS ∧
    |(avoidWalls atan2 sqrtQ pre).position.y| ≤ CUBE_HALF_SIZE - SEGMENT_RADIUS ∧
    |(avoidWalls atan2 sqrtQ pre).position.z| ≤ CUBE_HALF_SIZE - SEGMENT_RADIUS ∧
    (avoidWalls atan2 sqrtQ pre).rotY =
      pre.rotY + (atan2 (sx / len) (sz / len) - pre.rotY) * (12 / 100) ∧
    (avoidWalls atan2 sqrtQ pre).rotX =
      pre.rotX + (atan2 (-(sy / len)) (sqrtQ (sx / len * (sx / len) + sz / len * (sz / len)))
        - pre.rotX) * (12 / 100 * (1 / 2)) ∧
    (updateAISteeringMonolithic false phase atan2 sqrtQ randomOffset shadowSpeed
      nibbles hmono).position = hmono.position := by
  intro pre sx sy sz len
  have hguard : ¬(sx = 0 ∧ sy = 0 ∧ sz = 0) := by
    rcases hex with hx | hy | hz
    · exact fun hc => steerComp_ne_zero hx hc.1
    · exact fun hc => steerComp_ne_zero hy hc.2.1
    · exact fun hc => steerComp_ne_zero hz hc.2.2
  have heq : updateAISteeringModular false phase seek atan2 sqrtQ h =
      avoidWalls atan2 sqrtQ pre := by
    simp [updateAISteeringModular, preSteer, pre]
  have hneg : -CUBE_HALF_SIZE + SEGMENT_RADIUS = -(CUBE_HALF_SIZE - SEGMENT_RADIUS) := by ring
  have hhi : (0 : ℚ) ≤ CUBE_HALF_SIZE - SEGMENT_RADIUS := by
    norm_num [CUBE_HALF_SIZE, CUBE_SIZE, SEGMENT_RADIUS]
  have havoid : avoidWalls atan2 sqrtQ pre =
      ⟨⟨min (max pre.position.x (-CUBE_HALF_SIZE + SEGMENT_RADIUS)) (CUBE_HALF_SIZE - SEGMENT_RADIUS),
        min (max pre.position.y (-CUBE_HALF_SIZE + SEGMENT_RADIUS)) (CUBE_HALF_SIZE - SEGMENT_RADIUS),
        min (max pre.position.z (-CUBE_HALF_SIZE + SEGMENT_RADIUS)) (CUBE_HALF_SIZE - SEGMENT_RADIUS)⟩,
       pre.rotX + (atan2 (-(sy / len)) (sqrtQ (sx / len * (sx / len) + sz / len * (sz / len)))
         - pre.rotX) * (12 / 100 * (1 / 2)),
       pre.rotY + (atan2 (sx / len) (sz / len) - pre.rotY) * (12 / 100),
       pre.speed⟩ := by
    rw [avoidWalls]
    simp only []
    rw [if_neg hguard]
  refine ⟨heq, ?_, ?_, ?_, by rw [havoid], by rw [havoid],
    updateAISteeringMonolithic_position phase _ _ _ _ _ _⟩
  · rw [havoid]
    simp only [hneg]
    exact abs_min_max_le hhi
  · rw [havoid]
    simp only [hneg]
    exact abs_min_max_le hhi
  · rw [havoid]
    simp only [hneg]
    exact abs_min_max_le hhi

/-- Witness for C4 (amended), at a concrete non-player head at (47,0,0) in
the initial reflection phase with trivial seek and angle functions: its x
coordinate ends within 49.2 of the origin. -/
theorem C4_wall_avoidance_amended_witness :
    |(avoidWalls (fun _ _ => 0) (fun _ => 0)
        (preSteer true (fun s => s) ⟨⟨47, 0, 0⟩, 0, 0, 0⟩)).position.x| ≤
      CUBE_HALF_SIZE - SEGMENT_RADIUS :=
  (C4_wall_avoidance_amended (fun _ _ => 0) (fun _ => 0) true (fun s => s)
    ⟨⟨47, 0, 0⟩, 0, 0, 0⟩ 0 0 [] ⟨⟨0, 0, 0⟩, 0, 0, 0⟩
    (Or.inl (by norm_num [preSteer, CUBE_HALF_SIZE, CUBE_SIZE, WALL_BUFFER,
      abs_of_nonneg]))).2.1

/-! ## Boundary monitor (claims C6 and C7)

Game._checkCubeBoundary (src/unnamed/part_002, lines 525-577) and the
identical checkCubeBoundary (src/unnamed/part_000, lines 1171-1240).  The
model takes the previous and current head positions directly (the source
reads the previous one from trail[1], the head position of the previous
frame). -/

/-- The isInsideCube helper: all coordinates within the half size. -/
def isInsideCube (halfSize : ℚ) (position : Vec3) : Bool :=
  decide (|position.x| ≤ halfSize) && decide (|position.y| ≤ halfSize) &&
    decide (|position.z| ≤ halfSize)

/-- Math.sign. -/
def signQ (q : ℚ) : ℚ := if 0 < q then 1 else if q < 0 then -1 else 0

structure WallHit where
  point : Vec3
  normal : Vec3
deriving DecidableEq, Repr

/-- The axis-selection cascade of _checkCubeBoundary: test x, then y, then z
with the condition |pos[axis]| > half && |prevPos[axis]| <= half; the first
matching axis produces the wall-hit point (current position with the crossed
coordinate clamped to the face) and the inward normal. -/
def findCrossedWall (halfSize : ℚ) (prevPos pos : Vec3) : Option WallHit :=
  if halfSize < |pos.x| ∧ |prevPos.x| ≤ halfSize then
    some ⟨⟨signQ pos.x * halfSize, pos.y, pos.z⟩, ⟨-signQ pos.x, 0, 0⟩⟩
  else if halfSize < |pos.y| ∧ |prevPos.y| ≤ halfSize then
    some ⟨⟨pos.x, signQ pos.y * halfSize, pos.z⟩, ⟨0, -signQ pos.y, 0⟩⟩
  else if halfSize < |pos.z| ∧ |prevPos.z| ≤ halfSize then
    some ⟨⟨pos.x, pos.y, signQ pos.z * halfSize⟩, ⟨0, 0, -signQ pos.z⟩⟩
  else none

/-- Game._checkCubeBoundary: bail out unless the previous position was
inside and the current one is outside; then find the crossed wall, whose
point/normal pair (when found) is handed to _spawnShadowSnake. -/
def checkCubeBoundary (halfSize : ℚ) (prevPos pos : Vec3) : Option WallHit :=
  if isInsideCube halfSize prevPos && !isInsideCube halfSize pos then
    findCrossedWall halfSize prevPos pos
  else none

/-- Claim C6: the crossed axis is selected in the fixed priority order x,
y, z — the produced hit always belongs to the first axis whose crossing
condition holds — with the reported point being the current position clamped
to the crossed face and the normal the inward axis normal; and the concrete
scenario (49,0,0) to (51,0,0) with half-extent 50 reports wallHitPoint
(50,0,0) and normal (-1,0,0) (crossed axis x with positive sign). -/
theorem C6_crossed_wall_selection :
    (∀ (halfSize : ℚ) (prevPos pos : Vec3) (hit : WallHit),
      findCrossedWall halfSize prevPos pos = some hit →
        ((halfSize < |pos.x| ∧ |prevPos.x| ≤ halfSize) ∧
          hit = ⟨⟨signQ pos.x * halfSize, pos.y, pos.z⟩, ⟨-signQ pos.x, 0, 0⟩⟩) ∨
        (¬(halfSize < |pos.x| ∧ |prevPos.x| ≤ halfSize) ∧
          (halfSize < |pos.y| ∧ |prevPos.y| ≤ halfSize) ∧
          hit = ⟨⟨pos.x, signQ pos.y * halfSize, pos.z⟩, ⟨0, -signQ pos.y, 0⟩⟩) ∨
        (¬(halfSize < |pos.x| ∧ |prevPos.x| ≤ halfSize) ∧
          ¬(halfSize < |pos.y| ∧ |prevPos.y| ≤ halfSize) ∧
          (halfSize < |pos.z| ∧ |prevPos.z| ≤ halfSize) ∧
          hit = ⟨⟨pos.x, pos.y, signQ pos.z * halfSize⟩, ⟨0, 0, -signQ pos.z⟩⟩)) ∧
    checkCubeBoundary 50 ⟨49, 0, 0⟩ ⟨51, 0, 0⟩ =
      some ⟨⟨50, 0, 0⟩, ⟨-1, 0, 0⟩⟩ := by
  constructor
  · intro halfSize prevPos pos hit h
    rw [findCrossedWall] at h
    by_cases hx : halfSize < |pos.x| ∧ |prevPos.x| ≤ halfSize
    · rw [if_pos hx] at h
      exact Or.inl ⟨hx, (Option.some_injective _ h).symm⟩
    · rw [if_neg hx] at h
      by_cases hy : halfSize < |pos.y| ∧ |prevPos.y| ≤ halfSize
      · rw [if_pos hy] at h
        exact Or.inr (Or.inl ⟨hx, hy, (Option.some_injective _ h).symm⟩)
      · rw [if_neg hy] at h
        by_cases hz : halfSize < |pos.z| ∧ |prevPos.z| ≤ halfSize
        · rw [if_pos hz] at h
          exact Or.inr (Or.inr ⟨hx, hy, hz, (Option.some_injective _ h).symm⟩)
        · rw [if_neg hz] at h
          exact Option.noConfusion h
  · have h49 : |(49 : ℚ)| = 49 := abs_of_nonneg (by norm_num)
    have h51 : |(51 : ℚ)| = 51 := abs_of_nonneg (by norm_num)
    have h0 : |(0 : ℚ)| = 0 := abs_zero
    norm_num [checkCubeBoundary, isInsideCube, findCrossedWall, signQ, h49, h51, h0]

/-- Witness for the selection property of C6, applied at the C6 scenario:
the x axis is the first (and only) crossing axis there. -/
theorem C6_crossed_wall_selection_witness :
    ((50 : ℚ) < |(51 : ℚ)| ∧ |(49 : ℚ)| ≤ 50) ∧
      (⟨⟨50, 0, 0⟩, ⟨-1, 0, 0⟩⟩ : WallHit) =
        ⟨⟨signQ 51 * 50, 0, 0⟩, ⟨-signQ 51, 0, 0⟩⟩ ∨
    (¬((50 : ℚ) < |(51 : ℚ)| ∧ |(49 : ℚ)| ≤ 50) ∧
      ((50 : ℚ) < |(0 : ℚ)| ∧ |(0 : ℚ)| ≤ 50) ∧
      (⟨⟨50, 0, 0⟩, ⟨-1, 0, 0⟩⟩ : WallHit) =
        ⟨⟨51, signQ 0 * 50, 0⟩, ⟨0, -signQ 0, 0⟩⟩) ∨
    (¬((50 : ℚ) < |(51 : ℚ)| ∧ |(49 : ℚ)| ≤ 50) ∧
      ¬((50 : ℚ) < |(0 : ℚ)| ∧ |(0 : ℚ)| ≤ 50) ∧
      ((50 : ℚ) < |(0 : ℚ)| ∧ |(0 : ℚ)| ≤ 50) ∧
      (⟨⟨50, 0, 0⟩, ⟨-1, 0, 0⟩⟩ : WallHit) =
        ⟨⟨51, 0, signQ 0 * 50⟩, ⟨0, 0, -signQ 0⟩⟩) := by
  refine C6_crossed_wall_selection.1 50 ⟨49, 0, 0⟩ ⟨51, 0, 0⟩ ⟨⟨50, 0, 0⟩, ⟨-1, 0, 0⟩⟩ ?_
  have h49 : |(49 : ℚ)| = 49 := abs_of_nonneg (by norm_num)
  have h51 : |(51 : ℚ)| = 51 := abs_of_nonneg (by norm_num)
  norm_num [findCrossedWall, signQ, h49, h51]

/-- A genuine inside-to-outside transition always finds a crossed wall: the
previous position bounds every axis, and some axis of the current position
exceeds the half size. -/
theorem findCrossedWall_isSome {halfSize : ℚ} {prev pos : Vec3}
    (hprev : isInsideCube halfSize prev = true)
    (hpos : isInsideCube halfSize pos = false) :
    (findCrossedWall halfSize prev pos).isSome = true := by
  rw [isInsideCube, Bool.and_eq_true, Bool.and_eq_true] at hprev
  obtain ⟨⟨hpx, hpy⟩, hpz⟩ := hprev
  rw [decide_eq_true_eq] at hpx hpy hpz
  have hout : halfSize < |pos.x| ∨ halfSize < |pos.y| ∨ halfSize < |pos.z| := by
    by_contra hc
    push_neg at hc
    rw [isInsideCube] at hpos
    simp [hc.1, hc.2.1, hc.2.2] at hpos
  rw [findCrossedWall]
  rcases hout with h | h | h
  · rw [if_pos ⟨h, hpx⟩]
    rfl
  · by_cases hx : halfSize < |pos.x|
    · rw [if_pos ⟨hx, hpx⟩]
      rfl
    · rw [if_neg (fun hc => hx hc.1), if_pos ⟨h, hpy⟩]
      rfl
  · by_cases hx : halfSize < |pos.x|
    · rw [if_pos ⟨hx, hpx⟩]
      rfl
    · rw [if_neg (fun hc => hx hc.1)]
      by_cases hy : halfSize < |pos.y|
      · rw [if_pos ⟨hy, hpy⟩]
        rfl
      · rw [if_neg (fun hc => hy hc.1), if_pos ⟨h, hpz⟩]
        rfl

/-- Claim C7: boundary crossing is edge-triggered.  Along a trajectory that
is inside the arena before frame k and outside during frames k..k+N-1, the
spawn-eligible crossing event (a some result of the boundary check) fires at
frame k and at no other frame of the window; and it never fires on an
inside-to-inside step either. -/
theorem C7_boundary_edge_triggered (halfSize : ℚ) (traj : ℕ → Vec3) (k N : ℕ)
    (hk : 1 ≤ k)
    (hin : ∀ i, i < k → isInsideCube halfSize (traj i) = true)
    (hout : ∀ j, k ≤ j → j < k + N → isInsideCube halfSize (traj j) = false) :
    (∀ j, k ≤ j → j < k + N →
      ((checkCubeBoundary halfSize (traj (j - 1)) (traj j)).isSome = true ↔ j = k)) ∧
    (∀ i, 1 ≤ i → i < k → checkCubeBoundary halfSize (traj (i - 1)) (traj i) = none) := by
  constructor
  · intro j hj1 hj2
    by_cases hjk : j = k
    · subst hjk
      have hprev : isInsideCube halfSize (traj (j - 1)) = true := hin _ (by omega)
      have hpos : isInsideCube halfSize (traj j) = false := hout j (le_refl _) hj2
      rw [checkCubeBoundary, if_pos (by simp [hprev, hpos])]
      simp [findCrossedWall_isSome hprev hpos]
    · have hprev : isInsideCube halfSize (traj (j - 1)) = false := hout _ (by omega) (by omega)
      rw [checkCubeBoundary, if_neg (by simp [hprev])]
      simp [hjk]
  · intro i hi1 hi2
    have hpos : isInsideCube halfSize (traj i) = true := hin _ hi2
    rw [checkCubeBoundary, if_neg (by simp [hpos])]

/-- The exit trajectory used to witness C7: at the origin for two frames,
then at (51,0,0) from frame 2 on. -/
def c7traj : ℕ → Vec3 := fun i => if i < 2 then ⟨0, 0, 0⟩ else ⟨51, 0, 0⟩

/-- Witness for C7: on the concrete exit trajectory the crossing event fires
at the first frame outside (frame 2). -/
theorem C7_boundary_edge_triggered_witness :
    (checkCubeBoundary 50 (c7traj 1) (c7traj 2)).isSome = true ↔ 2 = 2 := by
  have h := C7_boundary_edge_triggered 50 c7traj 2 3 (by omega) ?_ ?_
  · exact h.1 2 (by omega) (by omega)
  · intro i hi
    have h0 : |(0 : ℚ)| ≤ 50 := by rw [abs_zero]; norm_num
    simp [c7traj, hi, isInsideCube, h0]
  · intro j hj1 hj2
    have h51 : ¬ |(51 : ℚ)| ≤ 50 := by rw [abs_of_nonneg (by norm_num : (0:ℚ) ≤ 51)]; norm_num
    have : ¬ j < 2 := by omega
    simp [c7traj, this, isInsideCube, h51]
    norm_num

/-! ## Shadow-snake spawn rate limiting (claim C8)

The time gate of Game._spawnShadowSnake (src/unnamed/part_002, lines
585-589): a crossing arriving less than SHADOW_SPAWN_DELAY after the last
successful spawn returns immediately; otherwise lastShadowSpawnTime is set
to the current time and the snake is created.  lastShadowSpawnTime starts at
0 (the constructor; _reset sets it to the reset time, which only delays the
first spawn further).  Crossing timestamps are modelled as a stream; the
n-th boundary crossing carries timestamp times n. -/

/-- One call of _spawnShadowSnake: given the stored lastShadowSpawnTime and
the current time, return the new stored time and whether a snake spawned. -/
def spawnShadowStep (lastShadowSpawnTime currentTime : ℚ) : ℚ × Bool :=
  if currentTime - lastShadowSpawnTime < SHADOW_SPAWN_DELAY then
    (lastShadowSpawnTime, false)
  else (currentTime, true)

/-- The stored lastShadowSpawnTime before processing the n-th crossing. -/
def lastSpawnTimeBefore (times : ℕ → ℚ) : ℕ → ℚ
  | 0 => 0
  | n + 1 => (spawnShadowStep (lastSpawnTimeBefore times n) (times n)).1

/-- Whether the n-th crossing actually spawns a shadow snake. -/
def spawnsShadow (times : ℕ → ℚ) (n : ℕ) : Bool :=
  (spawnShadowStep (lastSpawnTimeBefore times n) (times n)).2

theorem lastSpawnTimeBefore_mono (times : ℕ → ℚ) (n : ℕ) :
    lastSpawnTimeBefore times n ≤ lastSpawnTimeBefore times (n + 1) := by
  rw [lastSpawnTimeBefore, spawnShadowStep]
  by_cases h : times n - lastSpawnTimeBefore times n < SHADOW_SPAWN_DELAY
  · rw [if_pos h]
  · rw [if_neg h]
    simp only [not_lt] at h
    have : (0 : ℚ) < SHADOW_SPAWN_DELAY := by norm_num [SHADOW_SPAWN_DELAY]
    linarith

theorem lastSpawnTimeBefore_le (times : ℕ → ℚ) {m n : ℕ} (h : m ≤ n) :
    lastSpawnTimeBefore times m ≤ lastSpawnTimeBefore times n := by
  induction n with
  | zero =>
    rw [Nat.le_zero.mp h]
  | succ n ih =>
    rcases Nat.lt_or_ge m (n + 1) with hlt | hge
    · exact le_trans (ih (by omega)) (lastSpawnTimeBefore_mono times n)
    · rw [Nat.le_antisymm h hge]

theorem spawnsShadow_sets_time {times : ℕ → ℚ} {i : ℕ}
    (h : spawnsShadow times i = true) :
    times i ≤ lastSpawnTimeBefore times (i + 1) := by
  rw [spawnsShadow, spawnShadowStep] at h
  rw [lastSpawnTimeBefore, spawnShadowStep]
  by_cases hc : times i - lastSpawnTimeBefore times i < SHADOW_SPAWN_DELAY
  · rw [if_pos hc] at h
    exact Bool.noConfusion h
  · rw [if_neg hc]

/-- Claim C8: shadow-snake spawning is rate-limited.  If the i-th crossing
successfully spawns and the j-th crossing (j > i) arrives less than
SHADOW_SPAWN_DELAY = 3000 ms after it, the j-th crossing is dropped — so
any two crossings less than 3000 ms apart create at most one shadow snake. -/
theorem C8_spawn_rate_limited (times : ℕ → ℚ) (i j : ℕ) (hij : i < j)
    (hclose : times j - times i < SHADOW_SPAWN_DELAY)
    (hi : spawnsShadow times i = true) :
    spawnsShadow times j = false := by
  have h1 : times i ≤ lastSpawnTimeBefore times (i + 1) := spawnsShadow_sets_time hi
  have h2 : lastSpawnTimeBefore times (i + 1) ≤ lastSpawnTimeBefore times j :=
    lastSpawnTimeBefore_le times (by omega)
  rw [spawnsShadow, spawnShadowStep, if_pos (by linarith)]

/-- The crossing timestamps used to witness C8: 3000, 3500, 4000, ... -/
def c8times : ℕ → ℚ := fun n => 3000 + 500 * n

/-- Witness for C8: the first crossing at t=3000 spawns, so the second at
t=3500 (500 ms later) is dropped. -/
theorem C8_spawn_rate_limited_witness : spawnsShadow c8times 1 = false := by
  refine C8_spawn_rate_limited c8times 0 1 (by omega) ?_ ?_
  · norm_num [c8times, SHADOW_SPAWN_DELAY]
  · rw [spawnsShadow, lastSpawnTimeBefore, spawnShadowStep]
    norm_num [c8times, SHADOW_SPAWN_DELAY]

/-! ## Dissolution nibble drops (claim C9)

The nibble-creation loop of Game._dissolveSnake (src/unnamed/part_002,
lines 764-774) and of dissolveSnake (src/unnamed/part_000, lines
1479-1511): nibblesDropped = isPlayer ? min(segments.length, nibblesEaten)
: segments.length, then one nibble per loop index i < nibblesDropped that
is also < segments.length, created at segments[i].position, with a random
jitter applied only for non-player snakes (modelled as a jitter stream). -/

def dissolveNibbleDrops (isPlayer : Bool) (segments : List Vec3) (nibblesEaten : ℕ)
    (jitter : ℕ → Vec3) : List Vec3 :=
  let nibblesDropped := if isPlayer then min segments.length nibblesEaten
    else segments.length
  (List.range nibblesDropped).filterMap (fun i =>
    if h : i < segments.length then
      some (if isPlayer then segments.get ⟨i, h⟩ else segments.get ⟨i, h⟩ + jitter i)
    else none)

theorem length_filterMap_range {β : Type} (n : ℕ) (f : ℕ → Option β)
    (h : ∀ i, i < n → (f i).isSome = true) :
    ((List.range n).filterMap f).length = n := by
  induction n with
  | zero => rfl
  | succ m ih =>
    rw [List.range_succ, List.filterMap_append, List.length_append,
      ih (fun i hi => h i (by omega))]
    obtain ⟨v, hv⟩ := Option.isSome_iff_exists.mp (h m (by omega))
    simp [hv]

/-- Claim C9: a dissolving player snake drops min(segments.length,
nibblesEaten) nibbles and a dissolving shadow snake drops segments.length
nibbles; in particular a player with 8 segments and nibblesEaten = 3 drops
exactly 3, and a shadow snake with 5 segments drops exactly 5. -/
theorem C9_dissolution_drop_count :
    (∀ (isPlayer : Bool) (segments : List Vec3) (nibblesEaten : ℕ) (jitter : ℕ → Vec3),
      (dissolveNibbleDrops isPlayer segments nibblesEaten jitter).length =
        if isPlayer then min segments.length nibblesEaten else segments.length) ∧
    (dissolveNibbleDrops true
        [⟨1, 0, 0⟩, ⟨2, 0, 0⟩, ⟨3, 0, 0⟩, ⟨4, 0, 0⟩, ⟨5, 0, 0⟩, ⟨6, 0, 0⟩, ⟨7, 0, 0⟩, ⟨8, 0, 0⟩]
        3 (fun _ => ⟨0, 0, 0⟩)).length = 3 ∧
    (dissolveNibbleDrops false
        [⟨1, 0, 0⟩, ⟨2, 0, 0⟩, ⟨3, 0, 0⟩, ⟨4, 0, 0⟩, ⟨5, 0, 0⟩]
        0 (fun _ => ⟨0, 0, 0⟩)).length = 5 := by
  have hmain : ∀ (isPlayer : Bool) (segments : List Vec3) (nibblesEaten : ℕ)
      (jitter : ℕ → Vec3),
      (dissolveNibbleDrops isPlayer segments nibblesEaten jitter).length =
        if isPlayer then min segments.length nibblesEaten else segments.length := by
    intro isPlayer segments nibblesEaten jitter
    rw [dissolveNibbleDrops]
    cases isPlayer with
    | true =>
      refine length_filterMap_range _ _ ?_
      intro i hi
      have hlt : i < segments.length := lt_of_lt_of_le hi (min_le_left _ _)
      simp [hlt]
    | false =>
      refine length_filterMap_range _ _ ?_
      intro i hi
      rw [if_neg Bool.false_ne_true] at hi
      simp [hi]
  refine ⟨hmain, ?_, ?_⟩
  · rw [hmain]
    rfl
  · rw [hmain]
    rfl

/-! ## The invulnerability window (claim C10)

Game._updateGameLogic runs the collision phase only when a player snake
exists and isShadowSnakeInvulnerable is false (src/unnamed/part_002, lines
515-518); _spawnShadowSnake sets the flag (line 590) and a 3000 ms timer
clears it (lines 638-641).  The trace below records the frame steps between
those two transitions; each frame carries the world (grid, entity data,
faces) the collision phase would classify against, so the theorem quantifies
over every possible collision configuration during the window. -/

inductive GameStep where
  /-- The collision phase of one _updateGameLogic frame. -/
  | frame (grid : SpatialGrid) (objs : ℕ → Obj) (faces : List ℕ)
  /-- A successful _spawnShadowSnake: sets isShadowSnakeInvulnerable and
  appends the new snake. -/
  | spawnShadow (s : SnakeRec)
  /-- The 3000 ms setTimeout callback clearing the flag. -/
  | invulnTimerEnd

structure GameLogicState where
  isShadowSnakeInvulnerable : Bool
  player : Option SnakeRec
  shadows : List SnakeRec
  playerDissolved : Bool
  dissolvedLog : List ℕ
  eventsLog : List CollisionEvent

def applyGameStep (st : GameLogicState) : GameStep → GameLogicState
  | .frame grid objs faces =>
    match st.player with
    | some p =>
      if st.isShadowSnakeInvulnerable then st
      else
        let events := checkCollisions grid objs faces (some p) st.shadows
        let res := resolveCollisions p events
          ⟨st.shadows, st.playerDissolved, st.dissolvedLog⟩
        { st with shadows := res.shadows, playerDissolved := res.playerDissolved,
                  dissolvedLog := res.dissolved, eventsLog := st.eventsLog ++ events }
    | none => st
  | .spawnShadow s =>
    { st with isShadowSnakeInvulnerable := true, shadows := st.shadows ++ [s] }
  | .invulnTimerEnd => { st with isShadowSnakeInvulnerable := false }

def runGameSteps (steps : List GameStep) (st : GameLogicState) : GameLogicState :=
  steps.foldl applyGameStep st

theorem invulnerable_steps_frozen (steps : List GameStep) (st : GameLogicState)
    (hinv : st.isShadowSnakeInvulnerable = true)
    (hnc : GameStep.invulnTimerEnd ∉ steps) :
    (runGameSteps steps st).isShadowSnakeInvulnerable = true ∧
    (runGameSteps steps st).playerDissolved = st.playerDissolved ∧
    (runGameSteps steps st).dissolvedLog = st.dissolvedLog ∧
    (runGameSteps steps st).eventsLog = st.eventsLog := by
  induction steps generalizing st with
  | nil => exact ⟨hinv, rfl, rfl, rfl⟩
  | cons step rest ih =>
    have hstep : (applyGameStep st step).isShadowSnakeInvulnerable = true ∧
        (applyGameStep st step).playerDissolved = st.playerDissolved ∧
        (applyGameStep st step).dissolvedLog = st.dissolvedLog ∧
        (applyGameStep st step).eventsLog = st.eventsLog := by
      cases step with
      | frame grid objs faces =>
        have hfr : applyGameStep st (GameStep.frame grid objs faces) = st := by
          cases hp : st.player with
          | some p => simp [applyGameStep, hp, hinv]
          | none => simp [applyGameStep, hp]
        rw [hfr]
        exact ⟨hinv, rfl, rfl, rfl⟩
      | spawnShadow s => exact ⟨rfl, rfl, rfl, rfl⟩
      | invulnTimerEnd => exact absurd (List.mem_cons_self _ _) hnc
    have hrest : GameStep.invulnTimerEnd ∉ rest := fun hmem =>
      hnc (List.mem_cons_of_mem _ hmem)
    obtain ⟨h1, h2, h3, h4⟩ := ih (applyGameStep st step) hstep.1 hrest
    rw [runGameSteps, List.foldl_cons] at *
    exact ⟨h1, h2.trans hstep.2.1, h3.trans hstep.2.2.1, h4.trans hstep.2.2.2⟩

/-- Claim C10: from the step on which a shadow snake spawns (which sets the
global invulnerability flag) until the 3000 ms timer step clears it, every
frame's collision phase is skipped: no collision event is appended and no
snake — the player included — is dissolved by any collision, whatever
collision configurations the frames present. -/
theorem C10_invulnerability_window (s : SnakeRec) (mid : List GameStep)
    (hmid : GameStep.invulnTimerEnd ∉ mid) (st : GameLogicState) :
    (runGameSteps mid (applyGameStep st (GameStep.spawnShadow s))).playerDissolved =
      st.playerDissolved ∧
    (runGameSteps mid (applyGameStep st (GameStep.spawnShadow s))).dissolvedLog =
      st.dissolvedLog ∧
    (runGameSteps mid (applyGameStep st (GameStep.spawnShadow s))).eventsLog =
      st.eventsLog := by
  have h := invulnerable_steps_frozen mid (applyGameStep st (GameStep.spawnShadow s))
    rfl hmid
  exact ⟨h.2.1, h.2.2.1, h.2.2.2⟩

def c10init : GameLogicState := ⟨false, some c1player, [], false, [], []⟩

def c10shadow : SnakeRec := ⟨5, 200, [], false, 0⟩

def c10mid : List GameStep := [GameStep.frame c1grid c1objs []]

/-- Witness for C10: one frame executed inside the window dissolves nothing
and emits no events. -/
theorem C10_invulnerability_window_witness :
    (runGameSteps c10mid (applyGameStep c10init (GameStep.spawnShadow c10shadow))).playerDissolved =
      c10init.playerDissolved ∧
    (runGameSteps c10mid (applyGameStep c10init (GameStep.spawnShadow c10shadow))).dissolvedLog =
      c10init.dissolvedLog ∧
    (runGameSteps c10mid (applyGameStep c10init (GameStep.spawnShadow c10shadow))).eventsLog =
      c10init.eventsLog :=
  C10_invulnerability_window c10shadow c10mid (by simp [c10mid]) c10init

/-- Witness for the amended C2 invariant, instantiated on the concrete
operation sequence: membership in cell (0,0,0) coincides with the tracked
cell of entity 7. -/
theorem C2_spatial_index_invariant_witness :
    7 ∈ (runOps c2ops (initIndexState 10)).grid.grid ⟨0, 0, 0⟩ ↔
      (runOps c2ops (initIndexState 10)).grid.objectMap 7 = some ⟨0, 0, 0⟩ :=
  (C2_spatial_index_invariant 10 c2ops).1 7 ⟨0, 0, 0⟩

/-- Witness for C9 at a one-segment player snake that ate one nibble. -/
theorem C9_dissolution_drop_count_witness :
    (dissolveNibbleDrops true [⟨0, 0, 0⟩] 1 (fun _ => ⟨0, 0, 0⟩)).length =
      if true then min [Vec3.mk 0 0 0].length 1 else [Vec3.mk 0 0 0].length :=
  C9_dissolution_drop_count.1 true [⟨0, 0, 0⟩] 1 (fun _ => ⟨0, 0, 0⟩)
